import Mathlib

/-!
Shallow embedding of the auto-commit tool (src/index.ts, first variant, and
src/unnamed/part_000, which share the relevant code paths).

The program is sequential glue around external collaborators (git, the file
system, the chat-completion endpoint, the tiktoken tokenizer, the interactive
prompt). Each collaborator is modelled as an input of the run: the `Env`
structure below packages them, and `runMain` is the pure transcription of the
`main` function, returning the terminal outcome together with the ordered list
of observable steps the run performed. JS floating-point cost arithmetic is
modelled over `ℚ` (the comparisons at stake are far from any rounding
boundary), and the tiktoken encoder — an external library, opaque to this
repository — is a parameter `tokenCount : String → Nat`.
-/

/-- Characters removed by the JS `String.prototype.trim` used at
`diff.trim()` and `(await apiKeyFile.text()).trim()` (space, tab, LF, CR,
VT, FF; the exotic Unicode space classes are irrelevant to the claims). -/
def isJsWhitespace (c : Char) : Bool :=
  c = ' ' || c = '\t' || c = '\n' || c = '\r' || c = Char.ofNat 11 || c = Char.ofNat 12

/-- Model of JS `s.trim()`: strip leading and trailing whitespace. -/
def jsTrim (s : String) : String :=
  String.mk (((s.data.dropWhile isJsWhitespace).reverse.dropWhile isJsWhitespace).reverse)

/-- The error thrown by `loadApiKey` when the dotfile does not exist
(src/index.ts line 27). -/
def apiKeyErrorMsg : String :=
  "No OpenAI API key found. Please create a file at ~/.auto-commit-openai-api-key with your OpenAI API key or set the OPENAI_API_KEY environment variable."

/-- Model of `process.env.HOME || '~'` (src/index.ts line 24): an unset or
empty `HOME` falls back to the literal string `~`. -/
def homeBase (home : Option String) : String :=
  match home with
  | some h => if h = "" then "~" else h
  | none => "~"

/-- Model of node `path.join(a, b)` for the inputs this program produces: a
non-empty first segment without trailing slash, joined with `/`. -/
def pathJoin (a b : String) : String :=
  a ++ "/" ++ b

/-- The dotfile path `path.join(process.env.HOME || '~', '.auto-commit-openai-api-key')`
(src/index.ts line 24). -/
def apiKeyFilePath (home : Option String) : String :=
  pathJoin (homeBase home) ".auto-commit-openai-api-key"

/-- The dotfile branch of `loadApiKey` (src/index.ts lines 24-32): if the file
does not exist, throw; otherwise return its contents trimmed. The file system
is modelled as `fs : String → Option String` (contents when the file exists). -/
def loadApiKeyFromFile (home : Option String) (fs : String → Option String) :
    Except String String :=
  match fs (apiKeyFilePath home) with
  | none => .error apiKeyErrorMsg
  | some contents => .ok (jsTrim contents)

/-- Model of `loadApiKey` (src/index.ts lines 17-33). `env` is
`process.env.OPENAI_API_KEY`; the JS truthiness test `if (apiKeyEnv)` means a
set-but-empty variable falls through to the dotfile. -/
def loadApiKey (env home : Option String) (fs : String → Option String) :
    Except String String :=
  match env with
  | some k => if k = "" then loadApiKeyFromFile home fs else .ok k
  | none => loadApiKeyFromFile home fs

/-- The `Config` record built by `loadConfig` (src/index.ts lines 36-44). -/
structure Config where
  apiKey : String
  model : String
  maxTokens : Nat
deriving DecidableEq

/-- Model of `loadConfig` (src/index.ts lines 36-44). -/
def loadConfig (env home : Option String) (fs : String → Option String) :
    Except String Config :=
  match loadApiKey env home fs with
  | .error m => .error m
  | .ok apiKey => .ok { apiKey := apiKey, model := "gpt-4o-mini", maxTokens := 200 }

/-- The observable part of the HTTP response from the chat-completion
endpoint: `ok`/`status`/`statusText` of the fetch response, and the first
completion choice content `data.choices[0].message.content` when well-formed. -/
structure ApiResponse where
  ok : Bool
  status : Nat
  statusText : String
  content : String
deriving DecidableEq

/-- Model of `generateCommitMessage` after the fetch settles
(src/index.ts lines 102-107): on a non-ok response throw an error naming
status and statusText; on success return the first choice content trimmed. -/
def generateCommitMessage (resp : ApiResponse) : Except String String :=
  if resp.ok then
    .ok (jsTrim resp.content)
  else
    .error ("API request failed: " ++ toString resp.status ++ " " ++ resp.statusText)

/-- Model of `calcCost` (src/index.ts lines 110-116): token count of the diff
under the model tokenizer, divided by 1000, times the 0.000150 per-1K rate.
`tc` stands for the length of the encoding of the diff under the
`gpt-4o-mini` encoder obtained from `encoding_for_model`. -/
def calcCost (tc : String → Nat) (diff : String) : ℚ :=
  ((tc diff : ℚ) / 1000) * (150 / 1000000)

/-- The shell command string built for the commit step (src/index.ts line 167):
the message is interpolated, unescaped, into a double-quoted argument. -/
def commitCommand (msg : String) : String :=
  "git commit -m \"" ++ msg ++ "\""

/-- Modelled from the spec: POSIX-shell word splitting of the command string
handed to `execSync`, restricted to the constructs the claim needs (unquoted
spaces separate words; double quotes toggle quoting and are removed). The
shell itself is an external collaborator, not code of this repository. -/
def shellSplitAux (inQ : Bool) (cur : List Char) (cs : List Char) : List (List Char) :=
  match cs with
  | [] => if cur.isEmpty then [] else [cur.reverse]
  | c :: rest =>
    if c = '"' then
      shellSplitAux (!inQ) cur rest
    else if c = ' ' && !inQ then
      if cur.isEmpty then shellSplitAux inQ [] rest
      else cur.reverse :: shellSplitAux inQ [] rest
    else
      shellSplitAux inQ (c :: cur) rest

/-- The words the shell would hand to the program named by the first word. -/
def shellWords (s : String) : List String :=
  (shellSplitAux false [] s.data).map String.mk

/-- Model of JS `s.toLowerCase()` (ASCII range, which covers the prompt
answers at stake). -/
def jsToLower (s : String) : String :=
  String.mk (s.data.map Char.toLower)

/-- Model of the confirmation test comparing the lowercased user input
against the letter y
(src/index.ts line 136): affirmative exactly when a line was read and its
lowercasing is the single letter y. `none` is an absent response (EOF). -/
def isAffirmative : Option String → Bool
  | some s => jsToLower s == "y"
  | none => false

/-- The external inputs of one run of `main`. -/
structure Env where
  /-- Whether `git rev-parse --is-inside-work-tree` succeeds. -/
  isRepo : Bool
  /-- `process.env.OPENAI_API_KEY`. -/
  envApiKey : Option String
  /-- `process.env.HOME`. -/
  home : Option String
  /-- The file system, path to contents. -/
  fs : String → Option String
  /-- What `git diff --cached` produces (or the error message it fails with). -/
  diffResult : Except String String
  /-- The tiktoken encoder for gpt-4o-mini: diff text to token count. -/
  tokenCount : String → Nat
  /-- The chat-completion endpoint response for this run. -/
  apiResponse : ApiResponse
  /-- The line the user enters at the cost-confirmation prompt. -/
  costPromptResponse : Option String
  /-- The line the user enters at the final press-Enter prompt. -/
  finalPromptResponse : Option String

/-- Terminal outcomes of one run of `main`. -/
inductive Outcome where
  /-- `Not in a git repository.` then return. -/
  | notARepo
  /-- The catch block: `Error: <msg>` then `process.exit(1)`. -/
  | errorExit (msg : String)
  /-- `Operation cancelled.` then return (cost confirmation declined). -/
  | cancelledOnCost
  /-- `No changes to commit. Did you forget to git add?` then return. -/
  | nothingToCommit
  /-- `git commit -m "<msg>"` was executed. -/
  | committed (msg : String)
deriving DecidableEq

/-- Observable steps of a run, in program order. -/
inductive Step where
  | repoCheck
  | credentialLoad
  | diffAcquire
  /-- The cost is computed and compared against the 0.01 threshold. -/
  | costCheck
  /-- The `Do you want to proceed? (y/N):` prompt is shown. -/
  | costPrompt
  /-- `!diff.trim()` is evaluated. -/
  | emptyCheck
  /-- The fetch to the chat-completion endpoint is issued. -/
  | networkCall
  /-- The proposed commit message is displayed. -/
  | present
  /-- The `Press Enter to commit ...` prompt is shown. -/
  | finalPrompt
  /-- `execSync` runs the commit command. -/
  | commit
deriving DecidableEq

/-- The tail of `main` from the empty-diff check on (src/index.ts lines
142-169): the empty check, then the network call, then presentation, the
final prompt — whose response the code discards — and the unconditional
commit. `tr` is the trace accumulated so far. -/
def afterCostCheck (e : Env) (diff : String) (tr : List Step) : Outcome × List Step :=
  if jsTrim diff = "" then
    (.nothingToCommit, tr ++ [.emptyCheck])
  else
    match generateCommitMessage e.apiResponse with
    | .error m => (.errorExit m, tr ++ [.emptyCheck, .networkCall])
    | .ok msg => (.committed msg, tr ++ [.emptyCheck, .networkCall, .present, .finalPrompt, .commit])

/-- Model of `main` (src/index.ts lines 119-174): repo check, credential
load, diff acquisition, then the cost check — which the code performs before
the empty-diff check — and the rest of the pipeline. Thrown errors reach the
catch block and become `Outcome.errorExit`. -/
def runMain (e : Env) : Outcome × List Step :=
  if e.isRepo = true then
    match loadApiKey e.envApiKey e.home e.fs with
    | .error m => (.errorExit m, [.repoCheck, .credentialLoad])
    | .ok _ =>
      match e.diffResult with
      | .error m =>
        (.errorExit ("Failed to get git diff: " ++ m), [.repoCheck, .credentialLoad, .diffAcquire])
      | .ok diff =>
        if calcCost e.tokenCount diff > 1/100 then
          if isAffirmative e.costPromptResponse = true then
            afterCostCheck e diff [.repoCheck, .credentialLoad, .diffAcquire, .costCheck, .costPrompt]
          else
            (.cancelledOnCost, [.repoCheck, .credentialLoad, .diffAcquire, .costCheck, .costPrompt])
        else
          afterCostCheck e diff [.repoCheck, .credentialLoad, .diffAcquire, .costCheck]
  else
    (.notARepo, [.repoCheck])

/-- `pat` occurs as a contiguous substring of `s`. -/
def strContains (s pat : String) : Prop :=
  ∃ pre post, s = pre ++ pat ++ post

/-! ## Helper lemmas -/

theorem generateCommitMessage_ok_imp (resp : ApiResponse) (msg : String)
    (h : generateCommitMessage resp = .ok msg) : resp.ok = true := by
  unfold generateCommitMessage at h
  by_cases hok : resp.ok = true
  · exact hok
  · rw [if_neg hok] at h
    exact absurd h (by simp)

theorem afterCostCheck_trace_cases (e : Env) (diff : String) (tr : List Step) :
    (afterCostCheck e diff tr).2 = tr ++ [.emptyCheck] ∨
    (afterCostCheck e diff tr).2 = tr ++ [.emptyCheck, .networkCall] ∨
    (afterCostCheck e diff tr).2 =
      tr ++ [.emptyCheck, .networkCall, .present, .finalPrompt, .commit] := by
  unfold afterCostCheck
  by_cases h : jsTrim diff = ""
  · rw [if_pos h]
    exact Or.inl rfl
  · rw [if_neg h]
    cases hg : generateCommitMessage e.apiResponse with
    | error m => exact Or.inr (Or.inl rfl)
    | ok msg => exact Or.inr (Or.inr rfl)

theorem afterCostCheck_empty (e : Env) (diff : String) (tr : List Step)
    (hws : jsTrim diff = "") :
    afterCostCheck e diff tr = (.nothingToCommit, tr ++ [.emptyCheck]) := by
  unfold afterCostCheck
  rw [if_pos hws]

theorem afterCostCheck_commits (e : Env) (diff msg : String) (tr : List Step)
    (hne : ¬ jsTrim diff = "") (hapi : generateCommitMessage e.apiResponse = .ok msg) :
    afterCostCheck e diff tr =
      (.committed msg, tr ++ [.emptyCheck, .networkCall, .present, .finalPrompt, .commit]) := by
  unfold afterCostCheck
  rw [if_neg hne, hapi]

theorem runMain_reaches_cost (e : Env) (key diff : String)
    (hrepo : e.isRepo = true)
    (hkey : loadApiKey e.envApiKey e.home e.fs = .ok key)
    (hdiff : e.diffResult = .ok diff) :
    runMain e =
      (if calcCost e.tokenCount diff > 1/100 then
        if isAffirmative e.costPromptResponse = true then
          afterCostCheck e diff [.repoCheck, .credentialLoad, .diffAcquire, .costCheck, .costPrompt]
        else
          (.cancelledOnCost, [.repoCheck, .credentialLoad, .diffAcquire, .costCheck, .costPrompt])
      else
        afterCostCheck e diff [.repoCheck, .credentialLoad, .diffAcquire, .costCheck]) := by
  unfold runMain
  rw [if_pos hrepo, hkey, hdiff]

/-! ## Claim theorems -/

/-- Claim C2: for a diff whose estimated cost exceeds 0.01, the run shows the
cost-confirmation prompt before everything that follows it (in particular
before any network call), and a non-affirmative response ends the run as
cancelled, with no network call and no commit in the trace. -/
theorem cost_gate_blocks_network (e : Env) (key diff : String)
    (hrepo : e.isRepo = true)
    (hkey : loadApiKey e.envApiKey e.home e.fs = .ok key)
    (hdiff : e.diffResult = .ok diff)
    (hcost : calcCost e.tokenCount diff > 1/100) :
    (∃ rest, (runMain e).2 =
      [.repoCheck, .credentialLoad, .diffAcquire, .costCheck, .costPrompt] ++ rest) ∧
    (isAffirmative e.costPromptResponse = false →
      (runMain e).1 = .cancelledOnCost ∧
      Step.networkCall ∉ (runMain e).2 ∧ Step.commit ∉ (runMain e).2) := by
  rw [runMain_reaches_cost e key diff hrepo hkey hdiff, if_pos hcost]
  by_cases ha : isAffirmative e.costPromptResponse = true
  · rw [if_pos ha]
    constructor
    · rcases afterCostCheck_trace_cases e diff
        [.repoCheck, .credentialLoad, .diffAcquire, .costCheck, .costPrompt] with h | h | h <;>
        exact ⟨_, h⟩
    · intro hn
      rw [ha] at hn
      exact Bool.noConfusion hn
  · rw [if_neg ha]
    exact ⟨⟨[], rfl⟩, fun _ => ⟨rfl, by decide, by decide⟩⟩

/-- The environment of the C2 witness run: a diff the tokenizer prices above
the threshold, and a user who answers n at the cost prompt. -/
def costDeclineEnv : Env :=
  { isRepo := true, envApiKey := some "sk-test", home := none, fs := fun _ => none,
    diffResult := .ok "x", tokenCount := fun _ => 100000,
    apiResponse := ⟨true, 200, "OK", "m"⟩,
    costPromptResponse := some "n", finalPromptResponse := none }

/-- Witness for C2 at a concrete run. -/
theorem cost_gate_blocks_network_witness :
    calcCost costDeclineEnv.tokenCount "x" > 1/100 ∧
    (runMain costDeclineEnv).1 = .cancelledOnCost ∧
    Step.networkCall ∉ (runMain costDeclineEnv).2 := by
  have hc : calcCost costDeclineEnv.tokenCount "x" > 1/100 := by
    norm_num [calcCost, costDeclineEnv]
  have h := cost_gate_blocks_network costDeclineEnv "sk-test" "x" rfl rfl rfl hc
  have h2 := h.2 (by decide)
  exact ⟨hc, h2.1, h2.2.1⟩

theorem runMain_not_repo (e : Env) (h : ¬ e.isRepo = true) :
    runMain e = (.notARepo, [.repoCheck]) := by
  unfold runMain
  rw [if_neg h]

theorem runMain_key_error (e : Env) (m : String) (hrepo : e.isRepo = true)
    (hkey : loadApiKey e.envApiKey e.home e.fs = .error m) :
    runMain e = (.errorExit m, [.repoCheck, .credentialLoad]) := by
  unfold runMain
  rw [if_pos hrepo, hkey]

theorem runMain_diff_error (e : Env) (key m : String) (hrepo : e.isRepo = true)
    (hkey : loadApiKey e.envApiKey e.home e.fs = .ok key)
    (hdiff : e.diffResult = .error m) :
    runMain e = (.errorExit ("Failed to get git diff: " ++ m),
      [.repoCheck, .credentialLoad, .diffAcquire]) := by
  unfold runMain
  rw [if_pos hrepo, hkey, hdiff]

theorem commit_requires_api_ok (e : Env) (h : e.apiResponse.ok = false) :
    Step.commit ∉ (runMain e).2 := by
  have hafter : ∀ (diff : String) (tr : List Step), Step.commit ∉ tr →
      Step.commit ∉ (afterCostCheck e diff tr).2 := by
    intro diff tr htr
    unfold afterCostCheck
    by_cases hw : jsTrim diff = ""
    · rw [if_pos hw]
      intro hmem
      rcases List.mem_append.mp hmem with hmem | hmem
      · exact htr hmem
      · exact absurd hmem (by decide)
    · rw [if_neg hw]
      cases hg : generateCommitMessage e.apiResponse with
      | error m =>
        intro hmem
        rcases List.mem_append.mp hmem with hmem | hmem
        · exact htr hmem
        · exact absurd hmem (by decide)
      | ok msg =>
        have := generateCommitMessage_ok_imp e.apiResponse msg hg
        rw [h] at this
        exact Bool.noConfusion this
  by_cases hr : e.isRepo = true
  · cases hk : loadApiKey e.envApiKey e.home e.fs with
    | error m =>
      rw [runMain_key_error e m hr hk]
      show Step.commit ∉ [Step.repoCheck, Step.credentialLoad]
      decide
    | ok key =>
      cases hd : e.diffResult with
      | error m =>
        rw [runMain_diff_error e key m hr hk hd]
        show Step.commit ∉ [Step.repoCheck, Step.credentialLoad, Step.diffAcquire]
        decide
      | ok diff =>
        rw [runMain_reaches_cost e key diff hr hk hd]
        by_cases hc : calcCost e.tokenCount diff > 1/100
        · rw [if_pos hc]
          by_cases ha : isAffirmative e.costPromptResponse = true
          · rw [if_pos ha]
            exact hafter _ _ (by decide)
          · rw [if_neg ha]
            show Step.commit ∉
              [Step.repoCheck, Step.credentialLoad, Step.diffAcquire, Step.costCheck,
                Step.costPrompt]
            decide
        · rw [if_neg hc]
          exact hafter _ _ (by decide)
  · rw [runMain_not_repo e hr]
    show Step.commit ∉ [Step.repoCheck]
    decide

/-- Claim C5: a non-success HTTP response makes the message generator fail
with an error naming both the numeric status code and the reason phrase, and
no run whose endpoint response is non-success ever executes the commit step. -/
theorem api_error_names_status_and_blocks_commit (resp : ApiResponse)
    (h : resp.ok = false) :
    generateCommitMessage resp =
      .error ("API request failed: " ++ toString resp.status ++ " " ++ resp.statusText) ∧
    (∀ m, generateCommitMessage resp = .error m →
      strContains m (toString resp.status) ∧ strContains m resp.statusText) ∧
    (∀ e : Env, e.apiResponse = resp → Step.commit ∉ (runMain e).2) := by
  have hb : ¬ resp.ok = true := by rw [h]; exact Bool.noConfusion
  refine ⟨?_, ?_, ?_⟩
  · unfold generateCommitMessage
    rw [if_neg hb]
  · intro m hm
    unfold generateCommitMessage at hm
    rw [if_neg hb] at hm
    have hme : m = "API request failed: " ++ toString resp.status ++ " " ++ resp.statusText := by
      injection hm.symm
    constructor
    · exact ⟨"API request failed: ", " " ++ resp.statusText, by
        rw [hme, String.append_assoc, String.append_assoc]⟩
    · exact ⟨"API request failed: " ++ toString resp.status ++ " ", "", by
        rw [hme, String.append_empty]⟩
  · intro e he
    exact commit_requires_api_ok e (by rw [he, h])

/-- The environment of the C5 witness run: the endpoint answers 429. -/
def rateLimitedEnv : Env :=
  { isRepo := true, envApiKey := some "k", home := none, fs := fun _ => none,
    diffResult := .ok "x", tokenCount := fun _ => 0,
    apiResponse := ⟨false, 429, "Too Many Requests", ""⟩,
    costPromptResponse := none, finalPromptResponse := none }

/-- Witness for C5 at a concrete 429 response. -/
theorem api_error_names_status_and_blocks_commit_witness :
    generateCommitMessage ⟨false, 429, "Too Many Requests", ""⟩ =
      .error "API request failed: 429 Too Many Requests" ∧
    Step.commit ∉ (runMain rateLimitedEnv).2 := by
  have h := api_error_names_status_and_blocks_commit ⟨false, 429, "Too Many Requests", ""⟩ rfl
  exact ⟨h.1.trans (by rfl), h.2.2 rateLimitedEnv rfl⟩

/-- Claim C7: on an HTTP-success response the generator returns exactly the
first completion choice content with surrounding whitespace trimmed; on the
stubbed response whose content is fix(parser): handle empty input it returns
exactly that string. -/
theorem success_returns_trimmed_content :
    (∀ resp : ApiResponse, resp.ok = true →
      generateCommitMessage resp = .ok (jsTrim resp.content)) ∧
    generateCommitMessage ⟨true, 200, "OK", "fix(parser): handle empty input"⟩ =
      .ok "fix(parser): handle empty input" := by
  constructor
  · intro resp hok
    unfold generateCommitMessage
    rw [if_pos hok]
  · rfl

/-- Witness for C7 on a response with surrounding whitespace in the content. -/
theorem success_returns_trimmed_content_witness :
    generateCommitMessage ⟨true, 201, "Created", "  chore: tidy  "⟩ = .ok "chore: tidy" := by
  exact (success_returns_trimmed_content.1 ⟨true, 201, "Created", "  chore: tidy  "⟩ rfl).trans
    (by rfl)

/-- Claim C8: the cost estimate is exactly tokenCount/1000 times the 0.000150
rate, and for a tokenizer whose token count does not decrease under extension
of the input (the property the spec asserts of the model tokenizer), the
estimated cost of an extended diff is at least that of the original. -/
theorem calcCost_rate_and_monotone :
    (∀ (tc : String → Nat) (diff : String),
      calcCost tc diff = ((tc diff : ℚ) / 1000) * (150 / 1000000)) ∧
    (∀ tc : String → Nat, (∀ s t : String, tc s ≤ tc (s ++ t)) →
      ∀ s t : String, calcCost tc s ≤ calcCost tc (s ++ t)) := by
  refine ⟨fun tc diff => rfl, fun tc hmono s t => ?_⟩
  unfold calcCost
  have h : (tc s : ℚ) ≤ (tc (s ++ t) : ℚ) := by exact_mod_cast hmono s t
  gcongr

/-- Witness for C8 with the length tokenizer at concrete diffs. -/
theorem calcCost_rate_and_monotone_witness :
    calcCost String.length "ab" ≤ calcCost String.length ("ab" ++ "c") := by
  exact calcCost_rate_and_monotone.2 String.length
    (fun s t => by rw [String.length_append]; omega) "ab" "c"

/-- A commit message containing double-quote characters. -/
def injectionMsg : String := "a\" b \"c"

/-- Claim C9: for a commit message containing a double quote, the command
string built at src/index.ts line 167 does not carry the message as a single
literal argument: shell word splitting of the interpolated command yields
different words — a different message — instead of the four words
git, commit, -m, message. -/
theorem commit_command_not_single_argument :
    ('"' ∈ injectionMsg.data) ∧
    commitCommand injectionMsg = "git commit -m \"a\" b \"c\"" ∧
    shellWords (commitCommand injectionMsg) = ["git", "commit", "-m", "a", "b", "c"] ∧
    shellWords (commitCommand injectionMsg) ≠ ["git", "commit", "-m", injectionMsg] := by
  refine ⟨by decide, rfl, by decide, by decide⟩

/-- Claim C10: with HOME unset the credential-file path is the literal
relative path under a directory named by a tilde — not an absolute path —
and credential resolution consults the file system at exactly that literal
path. -/
theorem unset_home_literal_tilde_path :
    apiKeyFilePath none = "~/.auto-commit-openai-api-key" ∧
    (apiKeyFilePath none).data.head? = some '~' ∧
    (∀ fs : String → Option String, fs "~/.auto-commit-openai-api-key" = none →
      loadApiKey none none fs = .error apiKeyErrorMsg) ∧
    (∀ (fs : String → Option String) (c : String),
      fs "~/.auto-commit-openai-api-key" = some c →
      loadApiKey none none fs = .ok (jsTrim c)) := by
  refine ⟨rfl, by decide, ?_, ?_⟩
  · intro fs h
    unfold loadApiKey loadApiKeyFromFile
    rw [show apiKeyFilePath none = "~/.auto-commit-openai-api-key" from rfl, h]
  · intro fs c h
    unfold loadApiKey loadApiKeyFromFile
    rw [show apiKeyFilePath none = "~/.auto-commit-openai-api-key" from rfl, h]

/-- Witness for C10 on a file system without the dotfile. -/
theorem unset_home_literal_tilde_path_witness :
    loadApiKey none none (fun _ => none) = .error apiKeyErrorMsg := by
  exact unset_home_literal_tilde_path.2.2.1 (fun _ => none) rfl

/-- The environment of a run that reaches the final presentation step with
the user answering n at the final prompt. -/
def declinedFinalEnv : Env :=
  { isRepo := true, envApiKey := some "k", home := none, fs := fun _ => none,
    diffResult := .ok "x", tokenCount := fun _ => 0,
    apiResponse := ⟨true, 200, "OK", "feat: x"⟩,
    costPromptResponse := none, finalPromptResponse := some "n" }

/-- Claim C1 counterexample: a run reaching the final presentation step in
which the user answers n — a negative acknowledgment — at the final prompt,
yet the commit is executed: main discards the return value of the final
prompt (src/index.ts line 165) and runs the commit unconditionally
(line 167). -/
theorem commit_despite_negative_ack_counterexample :
    isAffirmative declinedFinalEnv.finalPromptResponse = false ∧
    (runMain declinedFinalEnv).1 = .committed "feat: x" ∧
    Step.commit ∈ (runMain declinedFinalEnv).2 := by
  have hrw := runMain_reaches_cost declinedFinalEnv "k" "x" rfl rfl rfl
  have hc : ¬ calcCost declinedFinalEnv.tokenCount "x" > 1/100 := by
    norm_num [calcCost, declinedFinalEnv]
  rw [hrw, if_neg hc,
    afterCostCheck_commits declinedFinalEnv "x" "feat: x" _ (by decide) (by rfl)]
  exact ⟨by decide, rfl, by decide⟩

/-- Claim C1 (amended): on every run that reaches the final presentation
step, the commit is invoked only after the final prompt returns — the prompt
event precedes the commit event in the trace — but the content of the
response is ignored: whatever the user enters there (affirmative, negative
or absent; the environment argument is unconstrained in its
finalPromptResponse field), the run ends with the commit executed. The only
way not to commit at that point is to terminate the process at the prompt,
which is outside the program. -/
theorem commit_after_final_prompt_ignores_response (e : Env) (key diff msg : String)
    (hrepo : e.isRepo = true)
    (hkey : loadApiKey e.envApiKey e.home e.fs = .ok key)
    (hdiff : e.diffResult = .ok diff)
    (hne : ¬ jsTrim diff = "")
    (hgate : calcCost e.tokenCount diff ≤ 1/100 ∨ isAffirmative e.costPromptResponse = true)
    (hapi : generateCommitMessage e.apiResponse = .ok msg) :
    (runMain e).1 = .committed msg ∧
    ∃ l, (runMain e).2 = l ++ [.present, .finalPrompt, .commit] := by
  rw [runMain_reaches_cost e key diff hrepo hkey hdiff]
  by_cases hc : calcCost e.tokenCount diff > 1/100
  · rcases hgate with hle | ha
    · exact absurd hc (not_lt.mpr hle)
    · rw [if_pos hc, if_pos ha, afterCostCheck_commits e diff msg _ hne hapi]
      refine ⟨rfl, [.repoCheck, .credentialLoad, .diffAcquire, .costCheck, .costPrompt,
        .emptyCheck, .networkCall], ?_⟩
      simp
  · rw [if_neg hc, afterCostCheck_commits e diff msg _ hne hapi]
    refine ⟨rfl, [.repoCheck, .credentialLoad, .diffAcquire, .costCheck,
      .emptyCheck, .networkCall], ?_⟩
    simp

/-- Witness for the amended C1 at the concrete declined-prompt run. -/
theorem commit_after_final_prompt_ignores_response_witness :
    (runMain declinedFinalEnv).1 = .committed "feat: x" := by
  exact (commit_after_final_prompt_ignores_response declinedFinalEnv "k" "x" "feat: x"
    rfl rfl rfl (by decide)
    (Or.inl (by norm_num [calcCost, declinedFinalEnv])) (by rfl)).1

/-- A file system holding a dotfile whose contents are whitespace only. -/
def wsDotfileFs : String → Option String :=
  fun p => if p = "~/.auto-commit-openai-api-key" then some "   " else none

/-- Claim C4 counterexample: with the environment variable absent and the
dotfile present but containing only whitespace, neither source yields a
non-empty value, yet credential resolution does not fail — it returns the
empty string (src/index.ts lines 26-32 only throw when the file does not
exist). -/
theorem empty_credential_no_error_counterexample :
    jsTrim "   " = "" ∧ loadApiKey none none wsDotfileFs = .ok "" := by
  exact ⟨rfl, rfl⟩

theorem loadApiKey_env_nonempty (k : String) (home : Option String)
    (fs : String → Option String) (hk : ¬ k = "") :
    loadApiKey (some k) home fs = .ok k := by
  show (if k = "" then loadApiKeyFromFile home fs else Except.ok k) = Except.ok k
  rw [if_neg hk]

theorem loadApiKey_env_missing (env home : Option String)
    (fs : String → Option String) (h : env = none ∨ env = some "") :
    loadApiKey env home fs = loadApiKeyFromFile home fs := by
  rcases h with h | h
  · rw [h]
    rfl
  · rw [h]
    show (if ("" : String) = "" then loadApiKeyFromFile home fs else Except.ok "") =
      loadApiKeyFromFile home fs
    rw [if_pos rfl]

theorem loadApiKeyFromFile_missing (home : Option String)
    (fs : String → Option String) (h : fs (apiKeyFilePath home) = none) :
    loadApiKeyFromFile home fs = .error apiKeyErrorMsg := by
  unfold loadApiKeyFromFile
  rw [h]

theorem loadApiKeyFromFile_exists (home : Option String)
    (fs : String → Option String) (c : String) (h : fs (apiKeyFilePath home) = some c) :
    loadApiKeyFromFile home fs = .ok (jsTrim c) := by
  unfold loadApiKeyFromFile
  rw [h]

/-- Claim C4 (amended): credential resolution returns the environment
variable when it is set and non-empty, whatever the file system holds; when
the variable is absent or set but empty, it returns the trimmed dotfile
contents whenever the dotfile exists — even when the trimmed contents are
empty; it fails exactly when the variable is absent or empty and the dotfile
does not exist, the only error it ever produces is the missing-credential
error, and that error names both the dotfile path and the variable as
remediation. -/
theorem loadApiKey_amended (env home : Option String) (fs : String → Option String) :
    (∀ k, env = some k → ¬ k = "" → loadApiKey env home fs = .ok k) ∧
    ((env = none ∨ env = some "") →
      ∀ c, fs (apiKeyFilePath home) = some c → loadApiKey env home fs = .ok (jsTrim c)) ∧
    (loadApiKey env home fs = .error apiKeyErrorMsg ↔
      (env = none ∨ env = some "") ∧ fs (apiKeyFilePath home) = none) ∧
    (∀ m, loadApiKey env home fs = .error m → m = apiKeyErrorMsg) ∧
    strContains apiKeyErrorMsg "OPENAI_API_KEY" ∧
    strContains apiKeyErrorMsg "~/.auto-commit-openai-api-key" := by
  refine ⟨?_, ?_, ⟨?_, ?_⟩, ?_, ?_, ?_⟩
  · intro k hk hne
    rw [hk]
    exact loadApiKey_env_nonempty k home fs hne
  · intro hmiss c hc
    rw [loadApiKey_env_missing env home fs hmiss, loadApiKeyFromFile_exists home fs c hc]
  · intro herr
    cases env with
    | none =>
      refine ⟨Or.inl rfl, ?_⟩
      cases hfs : fs (apiKeyFilePath home) with
      | none => rfl
      | some c =>
        rw [loadApiKey_env_missing none home fs (Or.inl rfl),
          loadApiKeyFromFile_exists home fs c hfs] at herr
        exact Except.noConfusion herr
    | some k =>
      by_cases hk : k = ""
      · subst hk
        refine ⟨Or.inr rfl, ?_⟩
        cases hfs : fs (apiKeyFilePath home) with
        | none => rfl
        | some c =>
          rw [loadApiKey_env_missing (some "") home fs (Or.inr rfl),
            loadApiKeyFromFile_exists home fs c hfs] at herr
          exact Except.noConfusion herr
      · rw [loadApiKey_env_nonempty k home fs hk] at herr
        exact Except.noConfusion herr
  · rintro ⟨hmiss, hfs⟩
    rw [loadApiKey_env_missing env home fs hmiss, loadApiKeyFromFile_missing home fs hfs]
  · intro m hm
    cases env with
    | none =>
      cases hfs : fs (apiKeyFilePath home) with
      | none =>
        rw [loadApiKey_env_missing none home fs (Or.inl rfl),
          loadApiKeyFromFile_missing home fs hfs] at hm
        injection hm with h
        exact h.symm
      | some c =>
        rw [loadApiKey_env_missing none home fs (Or.inl rfl),
          loadApiKeyFromFile_exists home fs c hfs] at hm
        exact Except.noConfusion hm
    | some k =>
      by_cases hk : k = ""
      · subst hk
        cases hfs : fs (apiKeyFilePath home) with
        | none =>
          rw [loadApiKey_env_missing (some "") home fs (Or.inr rfl),
            loadApiKeyFromFile_missing home fs hfs] at hm
          injection hm with h
          exact h.symm
        | some c =>
          rw [loadApiKey_env_missing (some "") home fs (Or.inr rfl),
            loadApiKeyFromFile_exists home fs c hfs] at hm
          exact Except.noConfusion hm
      · rw [loadApiKey_env_nonempty k home fs hk] at hm
        exact Except.noConfusion hm
  · exact ⟨"No OpenAI API key found. Please create a file at ~/.auto-commit-openai-api-key with your OpenAI API key or set the ",
      " environment variable.", by rfl⟩
  · exact ⟨"No OpenAI API key found. Please create a file at ",
      " with your OpenAI API key or set the OPENAI_API_KEY environment variable.", by rfl⟩

/-- Witness for the amended C4: a set non-empty variable wins, a set-but-empty
variable falls through to the dotfile, and with no variable and no dotfile
the missing-credential error is produced. -/
theorem loadApiKey_amended_witness :
    loadApiKey (some "sk-1") none (fun _ => none) = .ok "sk-1" ∧
    loadApiKey (some "") none (fun _ => some " key ") = .ok "key" ∧
    loadApiKey none none (fun _ => none) = .error apiKeyErrorMsg := by
  refine ⟨(loadApiKey_amended (some "sk-1") none (fun _ => none)).1 "sk-1" rfl (by decide),
    ?_, ?_⟩
  · exact ((loadApiKey_amended (some "") none (fun _ => some " key ")).2.1
      (Or.inr rfl) " key " rfl).trans (by rfl)
  · exact (loadApiKey_amended none none (fun _ => none)).2.2.1.mpr ⟨Or.inl rfl, rfl⟩


theorem dropWhile_ws_replicate (n : Nat) :
    List.dropWhile isJsWhitespace (List.replicate n ' ') = [] := by
  induction n with
  | zero => rfl
  | succ k ih =>
    rw [List.replicate_succ]
    exact ih

/-- A staged diff consisting of 66667 space characters: whitespace only, yet
66667 tokens under the length tokenizer price it above the 0.01 threshold. -/
def wsDiff : String := String.mk (List.replicate 66667 ' ')

theorem jsTrim_wsDiff : jsTrim wsDiff = "" := by
  unfold jsTrim wsDiff
  rw [show (String.mk (List.replicate 66667 ' ')).data = List.replicate 66667 ' ' from rfl,
    dropWhile_ws_replicate]
  rfl

theorem wsDiff_length : wsDiff.length = 66667 := by
  have h : wsDiff.length = (List.replicate 66667 ' ').length := rfl
  rw [h, List.length_replicate]

/-- The environment of a run on the big whitespace-only diff, with the length
function standing in for the tokenizer and the cost confirmation declined. -/
def bigWhitespaceEnv : Env :=
  { isRepo := true, envApiKey := some "k", home := none, fs := fun _ => none,
    diffResult := .ok wsDiff, tokenCount := String.length,
    apiResponse := ⟨true, 200, "OK", "m"⟩,
    costPromptResponse := some "n", finalPromptResponse := none }

theorem bigWhitespaceEnv_cost : calcCost bigWhitespaceEnv.tokenCount wsDiff > 1/100 := by
  show calcCost String.length wsDiff > 1/100
  unfold calcCost
  rw [wsDiff_length]
  norm_num

/-- Claim C3 counterexample: a whitespace-only staged diff whose estimated
cost exceeds the threshold, with the cost confirmation declined: the run
terminates as cancelled at the cost gate — the code checks the cost before
the empty-diff check (src/index.ts lines 133-145) — and never reaches the
nothing-to-commit terminal state. -/
theorem whitespace_diff_cancelled_counterexample :
    jsTrim wsDiff = "" ∧
    (runMain bigWhitespaceEnv).1 = .cancelledOnCost ∧
    ¬ (runMain bigWhitespaceEnv).1 = .nothingToCommit := by
  have hrw := runMain_reaches_cost bigWhitespaceEnv "k" wsDiff rfl rfl rfl
  rw [hrw, if_pos bigWhitespaceEnv_cost,
    if_neg (by decide : ¬ isAffirmative bigWhitespaceEnv.costPromptResponse = true)]
  exact ⟨jsTrim_wsDiff, rfl, by decide⟩

/-- Claim C3 (amended): on every run whose staged diff is empty or
whitespace-only, no network call is issued and no commit is created; the run
reaches the nothing-to-commit terminal state whenever the estimated cost is
at most 0.01 or the cost confirmation is answered affirmatively, and when the
cost exceeds 0.01 and the confirmation is declined it terminates as cancelled
at the cost gate instead. -/
theorem whitespace_diff_amended (e : Env) (key diff : String)
    (hrepo : e.isRepo = true)
    (hkey : loadApiKey e.envApiKey e.home e.fs = .ok key)
    (hdiff : e.diffResult = .ok diff)
    (hws : jsTrim diff = "") :
    Step.networkCall ∉ (runMain e).2 ∧ Step.commit ∉ (runMain e).2 ∧
    ((calcCost e.tokenCount diff ≤ 1/100 ∨ isAffirmative e.costPromptResponse = true) →
      (runMain e).1 = .nothingToCommit) ∧
    (calcCost e.tokenCount diff > 1/100 ∧ isAffirmative e.costPromptResponse = false →
      (runMain e).1 = .cancelledOnCost) := by
  rw [runMain_reaches_cost e key diff hrepo hkey hdiff]
  by_cases hc : calcCost e.tokenCount diff > 1/100
  · by_cases ha : isAffirmative e.costPromptResponse = true
    · rw [if_pos hc, if_pos ha, afterCostCheck_empty e diff _ hws]
      refine ⟨by decide, by decide, fun _ => rfl, fun hcon => ?_⟩
      rw [ha] at hcon
      exact Bool.noConfusion hcon.2
    · rw [if_pos hc, if_neg ha]
      refine ⟨by decide, by decide, fun hg => ?_, fun _ => rfl⟩
      rcases hg with hle | htrue
      · exact absurd hc (not_lt.mpr hle)
      · exact absurd htrue ha
  · rw [if_neg hc, afterCostCheck_empty e diff _ hws]
    exact ⟨by decide, by decide, fun _ => rfl, fun hcon => absurd hcon.1 hc⟩

/-- The environment of a run on an empty staged diff with a tokenizer that
assigns it zero tokens. -/
def emptyDiffEnv : Env :=
  { isRepo := true, envApiKey := some "k", home := none, fs := fun _ => none,
    diffResult := .ok "", tokenCount := fun _ => 0,
    apiResponse := ⟨true, 200, "OK", "m"⟩,
    costPromptResponse := none, finalPromptResponse := none }

/-- Witness for the amended C3 at the concrete empty-diff run. -/
theorem whitespace_diff_amended_witness :
    (runMain emptyDiffEnv).1 = .nothingToCommit ∧
    Step.networkCall ∉ (runMain emptyDiffEnv).2 := by
  have h := whitespace_diff_amended emptyDiffEnv "k" "" rfl rfl rfl rfl
  exact ⟨h.2.2.1 (Or.inl (by norm_num [calcCost, emptyDiffEnv])), h.1⟩

/-- Claim C6 counterexample: a whitespace-only staged diff on which the
cost-confirmation prompt IS shown — the code performs the cost check and its
prompt before the empty-diff check, contrary to the claimed state-machine
order. -/
theorem cost_prompt_shown_on_whitespace_counterexample :
    jsTrim wsDiff = "" ∧ Step.costPrompt ∈ (runMain bigWhitespaceEnv).2 := by
  have hrw := runMain_reaches_cost bigWhitespaceEnv "k" wsDiff rfl rfl rfl
  rw [hrw, if_pos bigWhitespaceEnv_cost,
    if_neg (by decide : ¬ isAffirmative bigWhitespaceEnv.costPromptResponse = true)]
  exact ⟨jsTrim_wsDiff, by decide⟩

/-- Claim C6 (amended): after diff acquisition the workflow performs the cost
check first — every run that gets past repository, credential and diff
acquisition has the trace prefix repoCheck, credentialLoad, diffAcquire,
costCheck, a prefix free of the empty-diff check — and the empty-diff check,
when reached, comes only after it; the cost-confirmation prompt is never
shown when the estimated cost is at most 0.01 (in particular not on an empty
diff that the tokenizer prices at zero), but a whitespace-only diff priced
above the threshold does reach the prompt. -/
theorem cost_check_precedes_empty_check (e : Env) (key diff : String)
    (hrepo : e.isRepo = true)
    (hkey : loadApiKey e.envApiKey e.home e.fs = .ok key)
    (hdiff : e.diffResult = .ok diff) :
    (∃ rest, (runMain e).2 =
      [.repoCheck, .credentialLoad, .diffAcquire, .costCheck] ++ rest) ∧
    Step.emptyCheck ∉ ([.repoCheck, .credentialLoad, .diffAcquire, .costCheck] : List Step) ∧
    (calcCost e.tokenCount diff ≤ 1/100 → Step.costPrompt ∉ (runMain e).2) := by
  rw [runMain_reaches_cost e key diff hrepo hkey hdiff]
  refine ⟨?_, by decide, ?_⟩
  · by_cases hc : calcCost e.tokenCount diff > 1/100
    · rw [if_pos hc]
      by_cases ha : isAffirmative e.costPromptResponse = true
      · rw [if_pos ha]
        rcases afterCostCheck_trace_cases e diff
          [.repoCheck, .credentialLoad, .diffAcquire, .costCheck, .costPrompt] with h | h | h
        · exact ⟨[Step.costPrompt, Step.emptyCheck], by rw [h]; rfl⟩
        · exact ⟨[Step.costPrompt, Step.emptyCheck, Step.networkCall], by rw [h]; rfl⟩
        · exact ⟨[Step.costPrompt, Step.emptyCheck, Step.networkCall, Step.present,
            Step.finalPrompt, Step.commit], by rw [h]; rfl⟩
      · rw [if_neg ha]
        exact ⟨[.costPrompt], rfl⟩
    · rw [if_neg hc]
      rcases afterCostCheck_trace_cases e diff
        [.repoCheck, .credentialLoad, .diffAcquire, .costCheck] with h | h | h <;>
        exact ⟨_, h⟩
  · intro hle
    rw [if_neg (not_lt.mpr hle)]
    rcases afterCostCheck_trace_cases e diff
      [.repoCheck, .credentialLoad, .diffAcquire, .costCheck] with h | h | h <;>
      rw [h] <;> decide

/-- Witness for the amended C6 at the concrete empty-diff run. -/
theorem cost_check_precedes_empty_check_witness :
    Step.costPrompt ∉ (runMain emptyDiffEnv).2 := by
  exact (cost_check_precedes_empty_check emptyDiffEnv "k" "" rfl rfl rfl).2.2
    (by norm_num [calcCost, emptyDiffEnv])
